import Mathlib

/-!
Shallow embedding of the PLANO-ELITE language-learning application's
client-side logic, focused on the pieces the specification's testable
properties talk about:

* the base64 helpers `encode`/`decode` of the live-chat screen,
* the API-key resolution helper `getGeminiKey`,
* the float32 → signed-16-bit-PCM capture conversion `createBlob`,
* the live-session message handler `onmessage` (playback scheduling,
  transcript aggregation, interruption handling),
* session teardown `stopSession`,
* the model-calling UI actions (`fetchCultureData`, `scanImage`,
  `playExpression`, `translateMessage`).

The browser/React environment is modelled with explicit state passing:
a React state setter is modelled as taking effect immediately (sequential
state semantics), refs are plain record fields, and environment inputs
(clock readings, network responses, stored keys) are explicit parameters.
All numeric audio quantities are rationals; JavaScript `Int16Array`
storage is modelled with explicit truncation and mod-2^16 wrapping.
-/

/-! ### Base64 helpers (live-chat screen)

The screen's `encode` builds a byte-per-character binary string and calls
`btoa`; `decode` calls `atob` and reads the character codes back.  We model
bytes as naturals (< 256) and `btoa`/`atob` as standard base64 over the
RFC 4648 alphabet, with `atob` taken on canonical padded input, which is
the only shape `btoa` produces. -/

/-- The RFC 4648 base64 alphabet, in index order. -/
def base64Chars : List Char :=
  "ABCDEFGHIJKLMNOPQRSTUVWXYZabcdefghijklmnopqrstuvwxyz0123456789+/".toList

/-- Character for a six-bit value (as `btoa` emits it). -/
def sextetChar (n : ℕ) : Char := base64Chars.getD n 'A'

/-- Six-bit value of an alphabet character (as `atob` reads it). -/
def sextetVal (c : Char) : ℕ := base64Chars.indexOf c

/-- Base64 encoding of a byte list, three bytes to four characters with
`=` padding — the character stream `btoa` produces from the binary
string that `encode` assembles. -/
def b64Encode : List ℕ → List Char
  | [] => []
  | [a] =>
      sextetChar (a / 4) :: sextetChar (a % 4 * 16) :: '=' :: '=' :: []
  | [a, b] =>
      sextetChar (a / 4) :: sextetChar (a % 4 * 16 + b / 16) ::
      sextetChar (b % 16 * 4) :: '=' :: []
  | a :: b :: d :: rest =>
      sextetChar (a / 4) :: sextetChar (a % 4 * 16 + b / 16) ::
      sextetChar (b % 16 * 4 + d / 64) :: sextetChar (d % 64) ::
      b64Encode rest

/-- Base64 decoding of a canonical padded character stream back to bytes
(`atob` followed by reading each character code). -/
def b64Decode : List Char → List ℕ
  | c1 :: c2 :: c3 :: c4 :: rest =>
      if c3 = '=' then
        [sextetVal c1 * 4 + sextetVal c2 / 16]
      else if c4 = '=' then
        [sextetVal c1 * 4 + sextetVal c2 / 16,
         sextetVal c2 % 16 * 16 + sextetVal c3 / 4]
      else
        (sextetVal c1 * 4 + sextetVal c2 / 16) ::
        (sextetVal c2 % 16 * 16 + sextetVal c3 / 4) ::
        (sextetVal c3 % 4 * 64 + sextetVal c4) ::
        b64Decode rest
  | _ => []

/-- Function `encode` of the live-chat screen: bytes → binary string → `btoa`. -/
def encode (bytes : List ℕ) : String := String.mk (b64Encode bytes)

/-- Function `decode` of the live-chat screen: `atob` → character codes → bytes. -/
def decode (base64 : String) : List ℕ := b64Decode base64.data

/-! ### API key resolution (`getGeminiKey`, src/components/VisualScan.tsx
part `lib/gemini`) -/

/-- The ambient key sources `getGeminiKey` consults: the persisted
localStorage entry, the Vite build-time variable, and the legacy
`process.env` value.  `none` models an absent entry. -/
structure Env where
  localKey : Option String
  viteKey : Option String
  processKey : Option String
deriving DecidableEq

/-- The usability test the source applies to each candidate:
`k && k.length > 10` (an absent value fails; the empty string is falsy
and in any case fails the length test). -/
def keyUsable : Option String → Bool
  | none => false
  | some k => decide (k.length > 10)

/-- Resolution function `getGeminiKey`: localStorage value first, then the Vite build-time
value, then the legacy runtime value; `null` when none passes. -/
def getGeminiKey (e : Env) : Option String :=
  if keyUsable e.localKey then e.localKey
  else if keyUsable e.viteKey then e.viteKey
  else if keyUsable e.processKey then e.processKey
  else none

/-- Modelled from the spec: "checked in priority order — per-browser
persisted setting, then build-time environment value, then a legacy
runtime environment fallback"; returns the first candidate that is
available (configured and passing the usability test), else null. -/
def firstUsableKey : List (Option String) → Option String
  | [] => none
  | c :: rest => if keyUsable c then c else firstUsableKey rest

/-! ### Capture conversion (`createBlob`, live-chat screen)

`createBlob` writes `data[i] * 32768` into an `Int16Array` and base64
encodes the backing bytes.  JavaScript's `Int16Array` store converts a
number by truncation toward zero followed by reduction mod 2^16 into
the signed range; float32 samples and the exact product by 2^15 are
modelled as rationals (the product is exact in doubles). -/

/-- JavaScript ToIntegerOrInfinity on a finite value: truncation toward
zero. -/
def jsTrunc (v : ℚ) : ℤ := if 0 ≤ v then ⌊v⌋ else -⌊-v⌋

/-- Reduction of an integer mod 2^16 into the signed 16-bit range, as an
`Int16Array` element store performs it. -/
def wrap16 (t : ℤ) : ℤ :=
  if t % 65536 < 32768 then t % 65536 else t % 65536 - 65536

/-- The value stored for one sample: `int16[i] = data[i] * 32768`. -/
def storeSample (x : ℚ) : ℤ := wrap16 (jsTrunc (x * 32768))

/-- Little-endian bytes of one stored 16-bit sample, as the
`Uint8Array(int16.buffer)` view exposes them. -/
def int16LEBytes (z : ℤ) : List ℕ :=
  let u := (z % 65536).toNat
  [u % 256, u / 256]

/-- Function `createBlob`: per-sample conversion to PCM16, then base64 over the
backing byte buffer (the blob's `data` field; its mime type is the
constant `audio/pcm;rate=16000`). -/
def createBlob (data : List ℚ) : String :=
  encode (((data.map storeSample).map int16LEBytes).flatten)

/-! ### Live-session playback pipeline (message handler, live-chat screen)

State held in refs: the playback clock cursor `nextStartTime`
(`nextStartTimeRef`) and the Active Source Set `sources` (`sourcesRef`,
modelled as the list of node identifiers currently tracked).  An audio
fragment is modelled by its decoded mono frame count together with the
environment at handling time: the output context's clock reading and the
identifier of the freshly created source node. -/

structure PlaybackState where
  nextStartTime : ℚ
  sources : List ℕ
deriving DecidableEq

/-- One received audio fragment: `samples` is the decoded PCM16 mono
frame count, `arrival` the output context's `currentTime` when the
fragment is handled, `srcId` the fresh buffer-source node. -/
structure Fragment where
  samples : ℕ
  arrival : ℚ
  srcId : ℕ
deriving DecidableEq

/-- Duration `AudioBuffer.duration` of the decoded fragment: frame count over the
24000 Hz output rate. -/
def bufferDuration (f : Fragment) : ℚ := (f.samples : ℚ) / 24000

/-- The audio branch of the message handler:
`nextStartTime = max(nextStartTime, ctx.currentTime)`, start the source
at that cursor, advance the cursor by the buffer's duration, add the
source to the Active Source Set.  Returns the new state and the
scheduled start time passed to `source.start`. -/
def scheduleFragment (st : PlaybackState) (f : Fragment) :
    PlaybackState × ℚ :=
  let start := max st.nextStartTime f.arrival
  (⟨start + bufferDuration f, f.srcId :: st.sources⟩, start)

/-- The source's `ended` listener: the node removes itself from the
Active Source Set. -/
def sourceEnded (st : PlaybackState) (id : ℕ) : PlaybackState :=
  ⟨st.nextStartTime, st.sources.erase id⟩

/-- Handling a run of audio fragments in arrival order; returns the
final playback state and the list of scheduled start times. -/
def playFragments (st : PlaybackState) : List Fragment → PlaybackState × List ℚ
  | [] => (st, [])
  | f :: fs =>
      let p := scheduleFragment st f
      let r := playFragments p.1 fs
      (r.1, p.2 :: r.2)

/-- Running prefix sums: the start time of the i-th buffer is the base
cursor plus the sum of the first i-1 durations. -/
def startTimes (c : ℚ) : List ℚ → List ℚ
  | [] => []
  | d :: ds => c :: startTimes (c + d) ds

/-- The output clock never overtakes the playback cursor across a run of
fragments (true in particular for a clock reading of zero throughout, the
state in which a fresh session delivers its first fragments). -/
def clockBehind (c : ℚ) : List Fragment → Bool
  | [] => true
  | f :: fs => decide (f.arrival ≤ c) && clockBehind (c + bufferDuration f) fs

/-! ### Live-session transcript aggregation and full message handler -/

inductive Role where
  | user
  | tutor
deriving DecidableEq

/-- A visible transcript message; `translation` is appended at most once
by the translate affordance. -/
structure Message where
  role : Role
  text : String
  translation : Option String
deriving DecidableEq

/-- The live-session state the message handler touches: the playback
refs, the two transcript accumulation buffers (`currentInputRef`,
`currentOutputRef`) and the visible transcript. -/
structure LiveState where
  playback : PlaybackState
  currentInput : String
  currentOutput : String
  transcription : List Message
deriving DecidableEq

/-- One `LiveServerMessage` as the handler reads it: an optional inline
audio fragment, optional incremental input/output transcription text,
and the turn-complete and interrupted flags. -/
structure ServerMessage where
  audioData : Option Fragment
  inputTranscription : Option String
  outputTranscription : Option String
  turnComplete : Bool
  interrupted : Bool
deriving DecidableEq

/-- Audio branch of `onmessage`. -/
def stepSound (m : ServerMessage) (st : LiveState) : LiveState :=
  match m.audioData with
  | some f => { st with playback := (scheduleFragment st.playback f).1 }
  | none => st

/-- Input-transcription branch of `onmessage`: append the fragment to the
input buffer. -/
def stepInput (m : ServerMessage) (st : LiveState) : LiveState :=
  match m.inputTranscription with
  | some t => { st with currentInput := st.currentInput ++ t }
  | none => st

/-- Output-transcription branch of `onmessage`: append the fragment to
the output buffer. -/
def stepOutput (m : ServerMessage) (st : LiveState) : LiveState :=
  match m.outputTranscription with
  | some t => { st with currentOutput := st.currentOutput ++ t }
  | none => st

/-- Turn-complete branch of `onmessage`: if either buffer is non-empty,
append a user message (input buffer non-empty) then a tutor message
(output buffer non-empty); clear both buffers in any case. -/
def stepTurnComplete (m : ServerMessage) (st : LiveState) : LiveState :=
  if m.turnComplete then
    let uText := st.currentInput
    let tText := st.currentOutput
    let trans :=
      if uText ≠ "" ∨ tText ≠ "" then
        st.transcription ++
          (if uText ≠ "" then [⟨Role.user, uText, none⟩] else []) ++
          (if tText ≠ "" then [⟨Role.tutor, tText, none⟩] else [])
      else st.transcription
    { st with transcription := trans, currentInput := "", currentOutput := "" }
  else st

/-- Interrupted branch of `onmessage`: stop and drop every node in the
Active Source Set and reset the cursor to zero. -/
def stepInterrupted (m : ServerMessage) (st : LiveState) : LiveState :=
  if m.interrupted then { st with playback := ⟨0, []⟩ } else st

/-- The live-session `onmessage` handler: audio, input transcription,
output transcription, turn completion, interruption, in source order. -/
def onmessage (st : LiveState) (m : ServerMessage) : LiveState :=
  stepInterrupted m (stepTurnComplete m (stepOutput m (stepInput m (stepSound m st))))

/-! ### Session teardown (`stopSession`, live-chat screen) -/

/-- A history entry snapshotted at session end.  The source also stamps a
random id and the current date; both are environment-generated metadata
carried unchanged, so the model keeps the fields the claims inspect. -/
structure ChatSessionLog where
  messages : List Message
  language : String
deriving DecidableEq

/-- The screen state `stopSession` touches: the visible transcript and
history list, the activity flags, the channel and audio-context refs
(modelled by whether they are non-null), the Active Source Set, the
metering loop handle, the analyser ref and the level meter. -/
structure SessionState where
  transcription : List Message
  pastSessions : List ChatSessionLog
  isActive : Bool
  isConnecting : Bool
  channelOpen : Bool
  ctxInOpen : Bool
  ctxOutOpen : Bool
  sources : List ℕ
  meterLoop : Bool
  analyserLive : Bool
  audioLevel : ℚ
deriving DecidableEq

/-- Teardown `stopSession`: snapshot the transcript into the history when it holds
more than the initial greeting, clear the activity flags, close and null
the channel and both audio contexts, stop and clear all pending playback
nodes, cancel the metering loop, drop the analyser, zero the level.  The
transcript itself is not cleared here (session start clears it). -/
def stopSession (lang : String) (s : SessionState) : SessionState :=
  { transcription := s.transcription
    pastSessions :=
      if 1 < s.transcription.length then
        ⟨s.transcription, lang⟩ :: s.pastSessions
      else s.pastSessions
    isActive := false
    isConnecting := false
    channelOpen := false
    ctxInOpen := false
    ctxOutOpen := false
    sources := []
    meterLoop := false
    analyserLive := false
    audioLevel := 0 }

/-! ### Model-calling UI actions

Each action is modelled as a function of the ambient key environment,
the relevant screen state, and (where reached) the model's reply.  A
`requests` counter counts how many times the action reaches its
`generateContent` call site; the claims' "performs no network call"
means this counter stays at zero. -/

/-- The credential-missing instruction shown by the culture hub's error
state and by the session-start / visual-scan alerts. -/
def keyMissingMsg : String :=
  "API Key não configurada. Clique no título do app (5 vezes) para configurar sua chave e tente novamente."

/-- The culture hub's generic failure message. -/
def cultureFailMsg : String :=
  "Houve um problema ao buscar dados em tempo real. Tente novamente em instantes."

/-- Outcome of one `fetchCultureData` run: model calls reached, the
loading flag after the run, and the error banner. -/
structure FetchOutcome where
  requests : ℕ
  isLoading : Bool
  error : Option String
deriving DecidableEq

/-- Action `fetchCultureData` (culture hub): set loading, resolve the key —
missing key sets the credential instruction and stops before the call;
otherwise issue the grounded generation request, and on a reply parse
and store it, on failure set the generic message; loading is cleared on
every path. -/
def fetchCultureData (e : Env) (reply : Option String) : FetchOutcome :=
  match getGeminiKey e with
  | none => { requests := 0, isLoading := false, error := some keyMissingMsg }
  | some _ =>
      match reply with
      | some _ => { requests := 1, isLoading := false, error := none }
      | none => { requests := 1, isLoading := false, error := some cultureFailMsg }

/-- The visual scan's generic failure text. -/
def scanFailMsg : String := "Falha na análise."

/-- Outcome of one `scanImage` run (visual scan): model calls reached,
the scanning flag after the run, any alerts raised, and the reading
shown. -/
structure ScanOutcome where
  requests : ℕ
  isScanning : Bool
  alerts : List String
  result : Option String
deriving DecidableEq

/-- Action `scanImage` (visual scan): set scanning and clear the
reading, resolve the key — a missing key alerts the credential
instruction and stops before the call; otherwise issue the request and
show the reply, or the failure text when it fails; scanning is cleared
on every path. -/
def scanImage (e : Env) (reply : Option String) : ScanOutcome :=
  match getGeminiKey e with
  | none => { requests := 0, isScanning := false, alerts := [keyMissingMsg], result := none }
  | some _ =>
      match reply with
      | some t => { requests := 1, isScanning := false, alerts := [], result := some t }
      | none => { requests := 1, isScanning := false, alerts := [], result := some scanFailMsg }

/-- Outcome of one `playExpression` run (culture hub expression audio):
model calls reached, the playing marker after the synchronous part, and
any message surfaced (the action has no error surface at all). -/
structure PlayOutcome where
  requests : ℕ
  playing : Option ℕ
  message : Option String
  keyUsed : Option String
deriving DecidableEq

/-- Action `playExpression` (culture hub): a per-action in-progress marker
suppresses re-entry; otherwise the action proceeds straight to the TTS
generation call using the raw legacy `process.env.API_KEY` value — it
never consults `getGeminiKey`, never checks for a missing credential and
surfaces no message.  `playing` is the marker right after the request is
issued (it is cleared later by the reply or failure path). -/
def playExpression (marker : Option ℕ) (e : Env) (index : ℕ) : PlayOutcome :=
  if marker.isSome then
    { requests := 0, playing := marker, message := none, keyUsed := none }
  else
    { requests := 1, playing := some index, message := none,
      keyUsed := e.processKey }

/-- The live-chat translate affordance's state: the visible transcript,
the per-item in-progress marker `isTranslatingIdx`, and the count of
translation requests issued so far. -/
structure TranslateState where
  transcription : List Message
  isTranslatingIdx : Option ℕ
  requests : ℕ
deriving DecidableEq

/-- The synchronous prefix of `translateMessage idx`: bail out when the
message is absent, not a tutor message, already translated, or any
translation is in progress; otherwise set the in-progress marker and
resolve the key — a missing key returns (the `finally` clears the
marker) without a message; with a key the request is issued and stays
pending with the marker held. -/
def translateMessage (e : Env) (st : TranslateState) (idx : ℕ) : TranslateState :=
  match st.transcription.get? idx with
  | none => st
  | some msg =>
      if msg.role = Role.tutor ∧ msg.translation = none ∧ st.isTranslatingIdx = none then
        match getGeminiKey e with
        | none => { st with isTranslatingIdx := none }
        | some _ => { st with isTranslatingIdx := some idx, requests := st.requests + 1 }
      else st

/-- Completion of a pending translation on message `idx`: store the
translated text when the reply carries one, and clear the marker
(the `finally` branch). -/
def translateComplete (st : TranslateState) (idx : ℕ) (reply : Option String) :
    TranslateState :=
  let trans :=
    match reply with
    | some t => st.transcription.mapIdx fun i m => if i = idx then { m with translation := some t } else m
    | none => st.transcription
  { st with transcription := trans, isTranslatingIdx := none }

/-! ### Claim theorems -/

/-- C7: `getGeminiKey` resolves the key in priority order — the
persisted localStorage value, then the Vite build-time value, then the
legacy `process.env` value — returning the first available candidate
and null when none is available. -/
theorem getGeminiKey_priority_order (e : Env) :
    getGeminiKey e = firstUsableKey [e.localKey, e.viteKey, e.processKey] := rfl

/-- C9: a candidate of length at most 10 is treated as absent — the
result is unchanged when such a candidate is removed, and when every
candidate is missing or too short the result is null. -/
theorem getGeminiKey_skips_short_keys (e : Env) :
    (∀ k, e.localKey = some k → k.length ≤ 10 →
        getGeminiKey e = getGeminiKey { e with localKey := none })
    ∧ (∀ k, e.viteKey = some k → k.length ≤ 10 →
        getGeminiKey e = getGeminiKey { e with viteKey := none })
    ∧ (∀ k, e.processKey = some k → k.length ≤ 10 →
        getGeminiKey e = getGeminiKey { e with processKey := none })
    ∧ ((∀ k, e.localKey = some k → k.length ≤ 10) →
       (∀ k, e.viteKey = some k → k.length ≤ 10) →
       (∀ k, e.processKey = some k → k.length ≤ 10) →
        getGeminiKey e = none) := by
  obtain ⟨lk, vk, pk⟩ := e
  refine ⟨?_, ?_, ?_, ?_⟩
  · intro k hk hlen
    cases hk
    simp [getGeminiKey, keyUsable, Nat.not_lt.mpr hlen]
  · intro k hk hlen
    cases hk
    simp [getGeminiKey, keyUsable, Nat.not_lt.mpr hlen]
  · intro k hk hlen
    cases hk
    simp [getGeminiKey, keyUsable, Nat.not_lt.mpr hlen]
  · intro h1 h2 h3
    cases lk with
    | none =>
        cases vk with
        | none =>
            cases pk with
            | none => rfl
            | some k => simp [getGeminiKey, keyUsable, Nat.not_lt.mpr (h3 k rfl)]
        | some k =>
            cases pk with
            | none => simp [getGeminiKey, keyUsable, Nat.not_lt.mpr (h2 k rfl)]
            | some k2 =>
                simp [getGeminiKey, keyUsable, Nat.not_lt.mpr (h2 k rfl),
                  Nat.not_lt.mpr (h3 k2 rfl)]
    | some k =>
        cases vk with
        | none =>
            cases pk with
            | none => simp [getGeminiKey, keyUsable, Nat.not_lt.mpr (h1 k rfl)]
            | some k2 =>
                simp [getGeminiKey, keyUsable, Nat.not_lt.mpr (h1 k rfl),
                  Nat.not_lt.mpr (h3 k2 rfl)]
        | some k2 =>
            cases pk with
            | none =>
                simp [getGeminiKey, keyUsable, Nat.not_lt.mpr (h1 k rfl),
                  Nat.not_lt.mpr (h2 k2 rfl)]
            | some k3 =>
                simp [getGeminiKey, keyUsable, Nat.not_lt.mpr (h1 k rfl),
                  Nat.not_lt.mpr (h2 k2 rfl), Nat.not_lt.mpr (h3 k3 rfl)]

/-- Witness for C9 at a concrete environment: a 5-character localStorage
value and a 2-character legacy value are both skipped and resolution
yields null. -/
theorem getGeminiKey_skips_short_keys_witness :
    getGeminiKey ⟨some "curta", none, some "xy"⟩ = none :=
  (getGeminiKey_skips_short_keys ⟨some "curta", none, some "xy"⟩).2.2.2
    (fun k hk => by cases hk; decide)
    (fun k hk => by cases hk)
    (fun k hk => by cases hk; decide)

/-- C2: a message carrying the interruption flag leaves the Active
Source Set empty and the playback clock cursor at zero, whatever the
pending state was. -/
theorem interruption_clears_playback (st : LiveState) (m : ServerMessage)
    (h : m.interrupted = true) :
    (onmessage st m).playback.sources = [] ∧
    (onmessage st m).playback.nextStartTime = 0 := by
  simp [onmessage, stepInterrupted, h]

/-- Witness for C2: a message that both schedules a fragment and then
interrupts, against a state with two pending sources and a nonzero
cursor. -/
theorem interruption_clears_playback_witness :
    (onmessage ⟨⟨5/2, [1, 2]⟩, "a", "b", []⟩
        ⟨some ⟨24000, 3, 7⟩, none, none, false, true⟩).playback.sources = [] ∧
    (onmessage ⟨⟨5/2, [1, 2]⟩, "a", "b", []⟩
        ⟨some ⟨24000, 3, 7⟩, none, none, false, true⟩).playback.nextStartTime = 0 :=
  interruption_clears_playback _ _ rfl

/-- C3: a pure turn-complete message appends a user message exactly when
the input buffer is non-empty, then a tutor message exactly when the
output buffer is non-empty, and clears both buffers. -/
theorem turnComplete_commits_buffers (st : LiveState) (m : ServerMessage)
    (ht : m.turnComplete = true)
    (hi : m.inputTranscription = none)
    (ho : m.outputTranscription = none) :
    (onmessage st m).transcription =
      st.transcription ++
        (if st.currentInput ≠ "" then [⟨Role.user, st.currentInput, none⟩] else []) ++
        (if st.currentOutput ≠ "" then [⟨Role.tutor, st.currentOutput, none⟩] else [])
    ∧ (onmessage st m).currentInput = ""
    ∧ (onmessage st m).currentOutput = "" := by
  cases haud : m.audioData <;>
  cases hint : m.interrupted <;>
  by_cases hU : st.currentInput = "" <;>
  by_cases hT : st.currentOutput = "" <;>
  simp [onmessage, stepSound, stepInput, stepOutput, stepTurnComplete,
    stepInterrupted, ht, hi, ho, haud, hint, hU, hT]

/-- Witness for C3: input buffer "Hello", empty output buffer — exactly
one user message with text "Hello" is appended and both buffers end
empty. -/
theorem turnComplete_commits_buffers_witness :
    (onmessage ⟨⟨0, []⟩, "Hello", "", [⟨Role.tutor, "g", none⟩]⟩
        ⟨none, none, none, true, false⟩).transcription =
      [⟨Role.tutor, "g", none⟩, ⟨Role.user, "Hello", none⟩]
    ∧ (onmessage ⟨⟨0, []⟩, "Hello", "", [⟨Role.tutor, "g", none⟩]⟩
        ⟨none, none, none, true, false⟩).currentInput = ""
    ∧ (onmessage ⟨⟨0, []⟩, "Hello", "", [⟨Role.tutor, "g", none⟩]⟩
        ⟨none, none, none, true, false⟩).currentOutput = "" := by
  have h := turnComplete_commits_buffers
    ⟨⟨0, []⟩, "Hello", "", [⟨Role.tutor, "g", none⟩]⟩
    ⟨none, none, none, true, false⟩ rfl rfl rfl
  simpa using h

/-- A session state with a transcript that already holds more than the
greeting, as it stands right before teardown. -/
def demoStopState : SessionState :=
  { transcription := [⟨Role.tutor, "g", none⟩, ⟨Role.user, "hi", none⟩]
    pastSessions := []
    isActive := true
    isConnecting := false
    channelOpen := true
    ctxInOpen := true
    ctxOutOpen := true
    sources := [3, 7]
    meterLoop := true
    analyserLive := true
    audioLevel := 1 }

/-- C4 counterexample: `stopSession` is not idempotent — on a state whose
transcript holds more than the greeting, a second call snapshots the
transcript into the history again, so the history grows twice. -/
theorem stopSession_not_idempotent :
    ¬ (stopSession "Inglês" (stopSession "Inglês" demoStopState) =
        stopSession "Inglês" demoStopState) := by decide

/-- C4 (amended): the second `stopSession` call repeats no teardown other
than the history snapshot — it equals the first call's result except
that, when the (uncleared) transcript still holds more than one message,
it prepends one more copy of the snapshot to the history. -/
theorem stopSession_second_call (lang : String) (s : SessionState) :
    stopSession lang (stopSession lang s) =
      { stopSession lang s with
          pastSessions :=
            if 1 < (stopSession lang s).transcription.length then
              ⟨(stopSession lang s).transcription, lang⟩ ::
                (stopSession lang s).pastSessions
            else (stopSession lang s).pastSessions } := rfl

/-- Scheduling a run of fragments from cursor `c` while the output clock
stays behind the cursor: the cursor advances by exactly the total
duration and the scheduled starts are the running prefix sums from `c`. -/
lemma playFragments_prefix (fs : List Fragment) :
    ∀ (c : ℚ) (srcs : List ℕ), clockBehind c fs = true →
      (playFragments ⟨c, srcs⟩ fs).1.nextStartTime =
          c + (fs.map bufferDuration).sum
      ∧ (playFragments ⟨c, srcs⟩ fs).2 = startTimes c (fs.map bufferDuration) := by
  induction fs with
  | nil => intro c srcs _; simp [playFragments, startTimes]
  | cons f fs ih =>
      intro c srcs h
      rw [clockBehind, Bool.and_eq_true, decide_eq_true_eq] at h
      obtain ⟨h1, h2⟩ := h
      have hmax : max c f.arrival = c := max_eq_left h1
      obtain ⟨ihA, ihB⟩ := ih (c + bufferDuration f) (f.srcId :: srcs) h2
      constructor
      · simp only [playFragments, scheduleFragment, hmax]
        rw [ihA]
        simp [List.sum_cons]
        ring
      · simp only [playFragments, scheduleFragment, hmax, List.map_cons,
          startTimes]
        rw [ihB]

/-- The running-prefix-sum start times are non-decreasing whenever every
duration is non-negative. -/
lemma startTimes_mono (ds : List ℚ) :
    ∀ c : ℚ, (∀ d ∈ ds, 0 ≤ d) →
      List.Chain' (fun a b => a ≤ b) (startTimes c ds) := by
  induction ds with
  | nil => intro c _; simp [startTimes]
  | cons d ds ih =>
      intro c h
      have hd : 0 ≤ d := h d (List.mem_cons_self d ds)
      have hrest := ih (c + d) (fun x hx => h x (List.mem_cons_of_mem d hx))
      cases ds with
      | nil => simp [startTimes]
      | cons d2 ds2 =>
          rw [startTimes, startTimes, List.chain'_cons]
          refine ⟨by linarith, ?_⟩
          rw [startTimes] at hrest
          exact hrest

/-- C1: from a fresh session (cursor zero), a run of audio fragments
with no interruption — the output clock staying behind the cursor —
leaves the cursor equal to the sum of the decoded buffers' durations,
schedules the i-th buffer at the prefix sum of the first i-1 durations,
and the start times are non-decreasing and non-overlapping (consecutive
starts are exactly one buffer duration apart). -/
theorem playback_cursor_prefix_sums (fs : List Fragment)
    (h : clockBehind 0 fs = true) :
    (playFragments ⟨0, []⟩ fs).1.nextStartTime = (fs.map bufferDuration).sum
    ∧ (playFragments ⟨0, []⟩ fs).2 = startTimes 0 (fs.map bufferDuration)
    ∧ List.Chain' (fun a b => a ≤ b) (playFragments ⟨0, []⟩ fs).2 := by
  obtain ⟨hA, hB⟩ := playFragments_prefix fs 0 [] h
  refine ⟨by simpa using hA, hB, ?_⟩
  rw [hB]
  refine startTimes_mono _ 0 ?_
  intro d hd
  obtain ⟨f, -, rfl⟩ := List.mem_map.1 hd
  unfold bufferDuration
  positivity

/-- Witness for C1: two fragments (one second, then half a second of
mono samples) arriving at clock reading zero — final cursor 3/2,
scheduled starts 0 and 1. -/
theorem playback_cursor_prefix_sums_witness :
    (playFragments ⟨0, []⟩ [⟨24000, 0, 1⟩, ⟨12000, 0, 2⟩]).1.nextStartTime = 3/2
    ∧ (playFragments ⟨0, []⟩ [⟨24000, 0, 1⟩, ⟨12000, 0, 2⟩]).2 = [0, 1] := by
  have hcb : clockBehind 0 [⟨24000, 0, 1⟩, ⟨12000, 0, 2⟩] = true := by
    simp [clockBehind, bufferDuration]
  have h := playback_cursor_prefix_sums [⟨24000, 0, 1⟩, ⟨12000, 0, 2⟩] hcb
  refine ⟨?_, ?_⟩
  · rw [h.1]; simp [bufferDuration]; norm_num
  · rw [h.2.1]; simp [startTimes, bufferDuration]

/-- C5 counterexample: with no credential configured anywhere (key
resolution returns null), the culture hub's expression playback still
proceeds to its model call — it never consults the key resolver — and
surfaces no credential-missing message. -/
theorem playExpression_ignores_missing_credential :
    getGeminiKey ⟨none, none, none⟩ = none
    ∧ (playExpression none ⟨none, none, none⟩ 0).requests = 1
    ∧ (playExpression none ⟨none, none, none⟩ 0).message = none
    ∧ (playExpression none ⟨none, none, none⟩ 0).keyUsed = none := by
  refine ⟨rfl, rfl, rfl, rfl⟩

/-- C5 (amended): with no credential configured, the culture fetch and
the visual scan perform no model call, end non-loading and surface the
credential-missing message (error banner resp. alert); message
translation also aborts before its model call and leaves its state
untouched, but surfaces no message; expression playback is exempt — it
never consults the key resolver (see the counterexample). -/
theorem missing_credential_aborts (e : Env) (reply : Option String)
    (st : TranslateState) (idx : ℕ)
    (h : getGeminiKey e = none) :
    fetchCultureData e reply = ⟨0, false, some keyMissingMsg⟩
    ∧ scanImage e reply = ⟨0, false, [keyMissingMsg], none⟩
    ∧ translateMessage e st idx = st := by
  refine ⟨by simp [fetchCultureData, h], by simp [scanImage, h], ?_⟩
  unfold translateMessage
  split
  · rfl
  · split
    · next hg =>
        rw [h]
        have h3 := hg.2.2
        cases st
        simp_all
    · rfl

/-- Witness for C5 (amended) at the all-absent environment. -/
theorem missing_credential_aborts_witness :
    fetchCultureData ⟨none, none, none⟩ none = ⟨0, false, some keyMissingMsg⟩
    ∧ scanImage ⟨none, none, none⟩ none = ⟨0, false, [keyMissingMsg], none⟩
    ∧ translateMessage ⟨none, none, none⟩
        ⟨[⟨Role.tutor, "Ciao", none⟩], none, 0⟩ 0 =
        ⟨[⟨Role.tutor, "Ciao", none⟩], none, 0⟩ :=
  missing_credential_aborts ⟨none, none, none⟩ none
    ⟨[⟨Role.tutor, "Ciao", none⟩], none, 0⟩ 0 rfl

/-- While any translation is marked in progress, a further
`translateMessage` invocation is a no-op. -/
lemma translateMessage_busy (e : Env) (st : TranslateState) (idx : ℕ)
    (h : st.isTranslatingIdx ≠ none) :
    translateMessage e st idx = st := by
  unfold translateMessage
  split
  · rfl
  · split
    · next hg => exact absurd hg.2.2 h
    · rfl

/-- C6: with a configured key, invoking `translateMessage` twice in
succession on the same tutor message while the first request is still
pending issues exactly one request — the second invocation is a
no-op. -/
theorem translateMessage_single_request (e : Env) (st : TranslateState)
    (idx : ℕ) (msg : Message)
    (hk : getGeminiKey e ≠ none)
    (hm : st.transcription.get? idx = some msg)
    (hr : msg.role = Role.tutor)
    (htr : msg.translation = none)
    (hidle : st.isTranslatingIdx = none) :
    (translateMessage e (translateMessage e st idx) idx).requests
        = st.requests + 1
    ∧ translateMessage e (translateMessage e st idx) idx
        = translateMessage e st idx := by
  obtain ⟨k, hk2⟩ := Option.ne_none_iff_exists'.1 hk
  have hfirst : translateMessage e st idx =
      { st with isTranslatingIdx := some idx, requests := st.requests + 1 } := by
    unfold translateMessage
    rw [hm]
    simp [hr, htr, hidle, hk2]
  have hsecond : translateMessage e (translateMessage e st idx) idx =
      translateMessage e st idx := by
    rw [hfirst]
    exact translateMessage_busy e _ idx (by simp)
  refine ⟨?_, hsecond⟩
  rw [hsecond, hfirst]

/-- Witness for C6: one tutor message, idle marker, a configured key —
two back-to-back invocations on index 0 issue exactly one request. -/
theorem translateMessage_single_request_witness :
    (translateMessage ⟨some "0123456789ab", none, none⟩
        (translateMessage ⟨some "0123456789ab", none, none⟩
          ⟨[⟨Role.tutor, "Bonjour", none⟩], none, 0⟩ 0) 0).requests = 1 := by
  have h := translateMessage_single_request ⟨some "0123456789ab", none, none⟩
    ⟨[⟨Role.tutor, "Bonjour", none⟩], none, 0⟩ 0 ⟨Role.tutor, "Bonjour", none⟩
    (by decide) rfl rfl rfl rfl
  simpa using h.1

/-- C8 counterexample: a full-scale positive sample `x = 1` (allowed by
the claim's interval `[-1, 1]`) gives `x * 32768 = 32768`, which is not a
representable signed 16-bit integer; the `Int16Array` store wraps it to
`-32768`, a full-scale negative value. -/
theorem createBlob_fullScale_wraps :
    storeSample 1 = -32768 ∧ storeSample 1 ≠ 32768 := by
  have h : storeSample 1 = -32768 := by
    norm_num [storeSample, jsTrunc, wrap16]
  exact ⟨h, by rw [h]; decide⟩

/-- C8 (amended): for every sample `x` with `-1 ≤ x < 1`, the value the
capture block stores is the truncation of `x * 32768`, a representable
signed 16-bit integer correctly encoding the sample; `createBlob` then
base64-encodes the resulting bytes.  At `x = 1` exactly, the product
32768 overflows and wraps to `-32768` (see the counterexample). -/
theorem storeSample_representable (x : ℚ) (h1 : -1 ≤ x) (h2 : x < 1) :
    storeSample x = jsTrunc (x * 32768)
    ∧ -32768 ≤ storeSample x ∧ storeSample x ≤ 32767 := by
  have hlo : (-32768 : ℚ) ≤ x * 32768 := by nlinarith
  have hhi : x * 32768 < 32768 := by nlinarith
  have htr : -32768 ≤ jsTrunc (x * 32768) ∧ jsTrunc (x * 32768) ≤ 32767 := by
    unfold jsTrunc
    split
    · next hpos =>
        constructor
        · have : (0 : ℤ) ≤ ⌊x * 32768⌋ := Int.floor_nonneg.mpr hpos
          omega
        · have : ⌊x * 32768⌋ < (32768 : ℤ) := by
            rw [Int.floor_lt]
            exact_mod_cast hhi
          omega
    · next hneg =>
        push_neg at hneg
        have hnn : (0 : ℚ) ≤ -(x * 32768) := by linarith
        have hub : -(x * 32768) ≤ (32768 : ℚ) := by linarith
        have hf1 : (0 : ℤ) ≤ ⌊-(x * 32768)⌋ := Int.floor_nonneg.mpr hnn
        have hf2 : ⌊-(x * 32768)⌋ ≤ (32768 : ℤ) := by
          have := Int.floor_le_floor hub
          simpa using this
        omega
  have hwrap : wrap16 (jsTrunc (x * 32768)) = jsTrunc (x * 32768) := by
    unfold wrap16
    split <;> omega
  unfold storeSample
  rw [hwrap]
  exact ⟨rfl, htr.1, htr.2⟩

/-- Witness for C8 (amended) at the half-scale sample `x = 1/2`. -/
theorem storeSample_representable_witness :
    storeSample (1/2) = jsTrunc ((1/2 : ℚ) * 32768)
    ∧ -32768 ≤ storeSample (1/2) ∧ storeSample (1/2) ≤ 32767 :=
  storeSample_representable (1/2) (by norm_num) (by norm_num)

/-- Reading back the alphabet character of a six-bit value recovers the
value. -/
lemma sextetVal_sextetChar : ∀ n, n < 64 → sextetVal (sextetChar n) = n := by
  decide

/-- No six-bit value encodes to the padding character. -/
lemma sextetChar_ne_pad : ∀ n, n < 64 → sextetChar n ≠ '=' := by
  decide

/-- Character-level base64 round trip on byte lists. -/
lemma b64Decode_b64Encode :
    ∀ bs : List ℕ, (∀ x ∈ bs, x < 256) → b64Decode (b64Encode bs) = bs := by
  intro bs
  induction bs using b64Encode.induct with
  | case1 => intro _; rfl
  | case2 a =>
      intro h
      have ha : a < 256 := h a (by simp)
      rw [b64Encode, b64Decode]
      rw [if_pos rfl]
      rw [sextetVal_sextetChar _ (by omega), sextetVal_sextetChar _ (by omega)]
      simp
      omega
  | case3 a b =>
      intro h
      have ha : a < 256 := h a (by simp)
      have hb : b < 256 := h b (by simp)
      rw [b64Encode, b64Decode]
      rw [if_neg (sextetChar_ne_pad _ (by omega)), if_pos rfl]
      rw [sextetVal_sextetChar _ (by omega), sextetVal_sextetChar _ (by omega),
        sextetVal_sextetChar _ (by omega)]
      simp
      constructor <;> omega
  | case4 a b d rest ih =>
      intro h
      have ha : a < 256 := h a (by simp)
      have hb : b < 256 := h b (by simp)
      have hd : d < 256 := h d (by simp)
      have hrest : ∀ x ∈ rest, x < 256 := fun x hx => h x (by simp [hx])
      rw [b64Encode, b64Decode]
      rw [if_neg (sextetChar_ne_pad _ (by omega)),
        if_neg (sextetChar_ne_pad _ (by omega))]
      rw [sextetVal_sextetChar _ (by omega), sextetVal_sextetChar _ (by omega),
        sextetVal_sextetChar _ (by omega), sextetVal_sextetChar _ (by omega)]
      rw [ih hrest]
      simp
      refine ⟨by omega, by omega, by omega⟩

/-- C10: the live-chat base64 helpers round-trip — decoding an encoded
byte array returns the byte array. -/
theorem decode_encode_roundtrip (bs : List ℕ) (h : ∀ x ∈ bs, x < 256) :
    decode (encode bs) = bs :=
  b64Decode_b64Encode bs h

/-- Witness for C10 on a concrete byte array. -/
theorem decode_encode_roundtrip_witness :
    decode (encode [0, 77, 255, 10]) = [0, 77, 255, 10] :=
  decode_encode_roundtrip [0, 77, 255, 10] (by decide)
